import Mathlib

/-!
Verification development for the `generic-logger` repository.

The development shallowly embeds the core logging pipeline:
  * `src/logger/sanitizers/default-sanitizer.ts` (current `DefaultSanitizer`),
  * `src/unnamed/part_003` (the earlier copy of `DefaultSanitizer`),
  * `src/logger/sanitizers/sanitizer-registry.ts` (`SanitizerRegistry`),
  * `src/logger/core/logger-repository.ts` (`LoggerRepository.log`,
    `sanitizeContext`, `getSanitizer`).

JavaScript values are modelled by the inductive `JSVal`: an object is its
insertion-ordered list of enumerable own string-keyed properties, an array is
its list of elements.  The three module-level regular expressions of
`default-sanitizer.ts` carry the `g` flag, so their `lastIndex` properties are
mutable module state; that state is modelled explicitly by `RegexState` and
threaded through every sanitizer operation exactly where the source reads or
writes `lastIndex` (`RegExp.prototype.test` advances it, `String.prototype.match`
and `String.prototype.replace` with a global regex reset it to `0`).

Strings are modelled over their character lists; the regular expressions of
`SENSITIVE_PATTERNS` are implemented as explicit matchers with JavaScript's
leftmost-match, greedy-with-backtracking semantics for exactly the constructs
the three patterns use (`\d{n}`, `[...]?`, `[...]+`, `\b`, literal characters).
`\s` is modelled by its ASCII members (space, tab, LF, VT, FF, CR); the inputs
of the repository's own documentation and tests are ASCII.
-/

set_option maxRecDepth 4000

namespace GenericLogger

/-! ## JavaScript values -/

/-- A JavaScript runtime value.  Objects are modelled by their
insertion-ordered enumerable own properties (`Object.entries` order), which is
exactly what `DefaultSanitizer.sanitize` traverses.  Numbers are modelled by
integers (all numeric literals appearing in the repository's pipeline are
integers). -/
inductive JSVal where
  | vNull
  | vUndef
  | vBool (b : Bool)
  | vNum (n : Int)
  | vStr (s : String)
  | vArr (elems : List JSVal)
  | vObj (fields : List (String × JSVal))

open JSVal

mutual

/-- Boolean equality on `JSVal`. -/
def beqVal : JSVal → JSVal → Bool
  | vNull, vNull => true
  | vUndef, vUndef => true
  | vBool a, vBool b => a == b
  | vNum a, vNum b => a == b
  | vStr a, vStr b => a == b
  | vArr a, vArr b => beqValList a b
  | vObj a, vObj b => beqValFields a b
  | _, _ => false

/-- Boolean equality on lists of `JSVal`. -/
def beqValList : List JSVal → List JSVal → Bool
  | [], [] => true
  | a :: as, b :: bs => beqVal a b && beqValList as bs
  | _, _ => false

/-- Boolean equality on property lists. -/
def beqValFields : List (String × JSVal) → List (String × JSVal) → Bool
  | [], [] => true
  | (k, v) :: as, (k', v') :: bs => k == k' && beqVal v v' && beqValFields as bs
  | _, _ => false

end

/-- Everything in the model has positive size. -/
theorem JSVal.sizeOf_pos (v : JSVal) : 0 < sizeOf v := by
  cases v <;> simp

/-- Structural induction over `JSVal` with elementwise hypotheses for the two
nested-list constructors. -/
theorem JSVal.inductionOn {motive : JSVal → Prop}
    (hNull : motive vNull) (hUndef : motive vUndef)
    (hBool : ∀ b, motive (vBool b)) (hNum : ∀ n, motive (vNum n))
    (hStr : ∀ s, motive (vStr s))
    (hArr : ∀ xs, (∀ x ∈ xs, motive x) → motive (vArr xs))
    (hObj : ∀ fs, (∀ kv ∈ fs, motive kv.2) → motive (vObj fs)) :
    ∀ v, motive v := by
  have H : ∀ (n : Nat) (v : JSVal), sizeOf v ≤ n → motive v := by
    intro n
    induction n with
    | zero =>
      intro v hv
      exact absurd (Nat.lt_of_lt_of_le (JSVal.sizeOf_pos v) hv) (by omega)
    | succ n ih =>
      intro v hv
      cases v with
      | vNull => exact hNull
      | vUndef => exact hUndef
      | vBool b => exact hBool b
      | vNum m => exact hNum m
      | vStr s => exact hStr s
      | vArr xs =>
        refine hArr xs (fun x hx => ih x ?_)
        have h1 : sizeOf x < sizeOf xs := List.sizeOf_lt_of_mem hx
        simp only [JSVal.vArr.sizeOf_spec] at hv
        omega
      | vObj fs =>
        refine hObj fs (fun kv hkv => ih kv.2 ?_)
        have h1 : sizeOf kv < sizeOf fs := List.sizeOf_lt_of_mem hkv
        obtain ⟨k, x⟩ := kv
        simp only [JSVal.vObj.sizeOf_spec] at hv
        simp only [Prod.mk.sizeOf_spec] at h1
        simp only
        omega
  intro v
  exact H (sizeOf v) v (Nat.le_refl _)

/-- `beqVal` decides equality. -/
theorem beqVal_iff : ∀ a b : JSVal, beqVal a b = true ↔ a = b := by
  intro a
  induction a using JSVal.inductionOn with
  | hNull => intro b; cases b <;> simp [beqVal]
  | hUndef => intro b; cases b <;> simp [beqVal]
  | hBool x => intro b; cases b <;> simp [beqVal]
  | hNum x => intro b; cases b <;> simp [beqVal]
  | hStr x => intro b; cases b <;> simp [beqVal]
  | hArr xs ih =>
    intro b
    cases b with
    | vArr ys =>
      simp only [beqVal, JSVal.vArr.injEq]
      induction xs generalizing ys with
      | nil => cases ys <;> simp [beqValList]
      | cons x xs ihl =>
        cases ys with
        | nil => simp [beqValList]
        | cons y ys =>
          simp only [beqValList, Bool.and_eq_true, List.cons.injEq]
          rw [ih x (by simp), ihl (fun z hz => ih z (by simp [hz])) ys]
    | vNull => simp [beqVal]
    | vUndef => simp [beqVal]
    | vBool _ => simp [beqVal]
    | vNum _ => simp [beqVal]
    | vStr _ => simp [beqVal]
    | vObj _ => simp [beqVal]
  | hObj fs ih =>
    intro b
    cases b with
    | vObj gs =>
      simp only [beqVal, JSVal.vObj.injEq]
      induction fs generalizing gs with
      | nil => cases gs <;> simp [beqValFields]
      | cons kv fs ihl =>
        obtain ⟨k, v⟩ := kv
        cases gs with
        | nil => simp [beqValFields]
        | cons kv' gs =>
          obtain ⟨k', v'⟩ := kv'
          simp only [beqValFields, Bool.and_eq_true, List.cons.injEq,
            Prod.mk.injEq, beq_iff_eq]
          rw [ih (k, v) (by simp),
            ihl (fun z hz => ih z (by simp [hz])) gs]
    | vNull => simp [beqVal]
    | vUndef => simp [beqVal]
    | vBool _ => simp [beqVal]
    | vNum _ => simp [beqVal]
    | vStr _ => simp [beqVal]
    | vArr _ => simp [beqVal]

instance : DecidableEq JSVal := fun a b =>
  decidable_of_iff (beqVal a b = true) (beqVal_iff a b)

/-- JavaScript truthiness (`if (x)`).  `NaN` does not occur in the model. -/
def jsTruthy : JSVal → Bool
  | vNull => false
  | vUndef => false
  | vBool b => b
  | vNum n => n ≠ 0
  | vStr s => s ≠ ""
  | vArr _ => true
  | vObj _ => true

/-- Whether `typeof x === 'object'` holds for a non-null value of the model
(arrays and plain objects; `typeof null` is also `'object'` but the pipeline
always conjoins this test with truthiness). -/
def jsIsObject : JSVal → Bool
  | vArr _ => true
  | vObj _ => true
  | _ => false

/-! ## JavaScript string helpers -/

/-- ASCII uppercase test, `c` in `'A'..'Z'`. -/
def isUpperAscii (c : Char) : Bool := 'A' ≤ c && c ≤ 'Z'

/-- ASCII lowering of one character, as `String.prototype.toLowerCase` acts on
ASCII input (all keys and pattern constants in the repository are ASCII). -/
def lowerChar (c : Char) : Char :=
  if isUpperAscii c then Char.ofNat (c.toNat + 32) else c

/-- Model of `String.prototype.toLowerCase` (ASCII). -/
def jsToLower (s : String) : String := ⟨s.data.map lowerChar⟩

/-- `pat` occurs at the start of `s` (character-list version). -/
def startsWithSeg : List Char → List Char → Bool
  | [], _ => true
  | _ :: _, [] => false
  | a :: as, b :: bs => a == b && startsWithSeg as bs

/-- `pat` occurs somewhere in `s` (character-list version). -/
def hasSeg : List Char → List Char → Bool
  | pat, [] => pat.isEmpty
  | pat, c :: rest => startsWithSeg pat (c :: rest) || hasSeg pat rest

/-- Model of `String.prototype.includes`. -/
def jsIncludes (s pat : String) : Bool := hasSeg pat.data s.data

/-- Model of `String.prototype.slice(0, n)`. -/
def jsTake (s : String) (n : Nat) : String := ⟨s.data.take n⟩

/-- Model of `String.prototype.slice(-n)` for `n > 0`: the last `n` characters
(the whole string when it is shorter than `n`). -/
def jsTakeLast (s : String) (n : Nat) : String :=
  ⟨s.data.drop (s.length - min n s.length)⟩

/-! ## The three `SENSITIVE_PATTERNS` regular expressions

`default-sanitizer.ts` declares

  email:      /([a-zA-Z0-9._-]+@[a-zA-Z0-9._-]+\.[a-zA-Z0-9_-]+)/gi
  creditCard: /\b\d{4}[\s-]?\d{4}[\s-]?\d{4}[\s-]?\d{4}\b/g
  phone:      /\b\d{3}[-.\s]?\d{3}[-.\s]?\d{4}\b/g

Each matcher below takes the subject (as a character list) and a start
position and returns the end position of the match attempt anchored at that
position, following the regex's greedy/backtracking semantics. -/

/-- Decimal digit class `\d`. -/
def isDigitChar (c : Char) : Bool := '0' ≤ c && c ≤ '9'

/-- Word character class underlying `\b`: `[A-Za-z0-9_]`. -/
def isWordChar (c : Char) : Bool :=
  isDigitChar c || ('a' ≤ c && c ≤ 'z') || ('A' ≤ c && c ≤ 'Z') || c == '_'

/-- Whitespace class `\s`, restricted to its ASCII members. -/
def isSpaceJs (c : Char) : Bool :=
  c == ' ' || c == '\t' || c == '\n' || c == '\x0b' || c == '\x0c' || c == '\r'

/-- The credit-card separator class `[\s-]`. -/
def isSepCard (c : Char) : Bool := isSpaceJs c || c == '-'

/-- The phone separator class `[-.\s]`. -/
def isSepPhone (c : Char) : Bool := c == '-' || c == '.' || isSpaceJs c

/-- The class `[a-zA-Z0-9._-]` (email local part and domain body). -/
def isEmailBody (c : Char) : Bool :=
  ('a' ≤ c && c ≤ 'z') || ('A' ≤ c && c ≤ 'Z') || isDigitChar c ||
    c == '.' || c == '_' || c == '-'

/-- The class `[a-zA-Z0-9_-]` (email top-level label, no dot). -/
def isEmailTail (c : Char) : Bool :=
  ('a' ≤ c && c ≤ 'z') || ('A' ≤ c && c ≤ 'Z') || isDigitChar c ||
    c == '_' || c == '-'

/-- Whether position `i` of `s` holds a word character (`false` out of range). -/
def wordAt (s : List Char) (i : Nat) : Bool :=
  match s.get? i with
  | some c => isWordChar c
  | none => false

/-- The word-boundary assertion `\b` at position `i`. -/
def boundaryAt (s : List Char) (i : Nat) : Bool :=
  (if i = 0 then false else wordAt s (i - 1)) != wordAt s i

/-- Match exactly `n` digits starting at `i`; returns the end position. -/
def digitsFrom (s : List Char) : Nat → Nat → Option Nat
  | i, 0 => some i
  | i, n + 1 =>
    match s.get? i with
    | some c => if isDigitChar c then digitsFrom s (i + 1) n else none
    | none => none

/-- Greedy optional character class `[...]?` in continuation style: try
consuming one class character first, fall back to consuming none. -/
def optClass (cls : Char → Bool) (s : List Char) (i : Nat)
    (k : Nat → Option Nat) : Option Nat :=
  match s.get? i with
  | some c => if cls c then (k (i + 1)).orElse (fun _ => k i) else k i
  | none => k i

/-- Anchored matcher for the `creditCard` pattern
`\b\d{4}[\s-]?\d{4}[\s-]?\d{4}[\s-]?\d{4}\b`. -/
def matchCardAt (s : List Char) (i : Nat) : Option Nat :=
  if boundaryAt s i then
    (digitsFrom s i 4).bind fun j1 =>
      optClass isSepCard s j1 fun j1' =>
        (digitsFrom s j1' 4).bind fun j2 =>
          optClass isSepCard s j2 fun j2' =>
            (digitsFrom s j2' 4).bind fun j3 =>
              optClass isSepCard s j3 fun j3' =>
                (digitsFrom s j3' 4).bind fun j4 =>
                  if boundaryAt s j4 then some j4 else none
  else none

/-- Anchored matcher for the `phone` pattern
`\b\d{3}[-.\s]?\d{3}[-.\s]?\d{4}\b`. -/
def matchPhoneAt (s : List Char) (i : Nat) : Option Nat :=
  if boundaryAt s i then
    (digitsFrom s i 3).bind fun j1 =>
      optClass isSepPhone s j1 fun j1' =>
        (digitsFrom s j1' 3).bind fun j2 =>
          optClass isSepPhone s j2 fun j2' =>
            (digitsFrom s j2' 4).bind fun j3 =>
              if boundaryAt s j3 then some j3 else none
  else none

/-- Length of the maximal run of `cls` characters starting at `i`. -/
def runLen (cls : Char → Bool) (s : List Char) (i : Nat) : Nat :=
  ((s.drop i).takeWhile cls).length

/-- Backtracking split of the email domain: with the maximal
`[a-zA-Z0-9._-]+` run after the `@` starting at `a`, try the split points for
the literal `\.` from the longest body (`p` consumed characters) downwards,
then require a nonempty `[a-zA-Z0-9_-]+` tail. -/
def emailDomSplit (s : List Char) (a : Nat) : Nat → Option Nat
  | 0 => none
  | p + 1 =>
    (if s.get? (a + (p + 1)) == some '.' then
        let t := runLen isEmailTail s (a + p + 2)
        if 0 < t then some (a + p + 2 + t) else none
      else none).orElse
      (fun _ => emailDomSplit s a p)

/-- Anchored matcher for the `email` pattern
`([a-zA-Z0-9._-]+@[a-zA-Z0-9._-]+\.[a-zA-Z0-9_-]+)` (the `i` flag is
irrelevant because the classes already contain both cases).  The local part is
a maximal class run because `@` is not in the class; the domain needs the
backtracking split of `emailDomSplit`. -/
def matchEmailAt (s : List Char) (i : Nat) : Option Nat :=
  let L := runLen isEmailBody s i
  if L = 0 then none
  else
    match s.get? (i + L) with
    | some '@' =>
      let a := i + L + 1
      let M := runLen isEmailBody s a
      if M = 0 then none else emailDomSplit s a M
    | _ => none

/-! ## Regex driver: global search, `test`, `match`, `replace` -/

/-- Find the leftmost match at a position `≥ i`, scanning positions upwards as
a JavaScript global regex does.  `fuel` bounds the scan (callers pass
`s.length + 1`, enough to reach the end of the subject). -/
def findFrom (matchAt : List Char → Nat → Option Nat) (s : List Char) :
    Nat → Nat → Option (Nat × Nat)
  | 0, _ => none
  | fuel + 1, i =>
    match matchAt s i with
    | some j => some (i, j)
    | none => if i < s.length then findFrom matchAt s fuel (i + 1) else none

/-- Model of `RegExp.prototype.test` for a regex with the `g` flag: the search
starts at `lastIndex`; on success `lastIndex` becomes the match end, on
failure (including `lastIndex` beyond the subject) it is reset to `0`.
Returns the boolean result together with the new `lastIndex`. -/
def regexTest (matchAt : List Char → Nat → Option Nat) (s : List Char)
    (lastIndex : Nat) : Bool × Nat :=
  if s.length < lastIndex then (false, 0)
  else
    match findFrom matchAt s (s.length + 1) lastIndex with
    | some (_, j) => (true, j)
    | none => (false, 0)

/-- The first element `match[0]` of `String.prototype.match` with a global
regex (`none` models a `null` result).  The call itself leaves the regex's
`lastIndex` at `0`; callers account for that. -/
def matchFirstSeg (matchAt : List Char → Nat → Option Nat) (s : List Char) :
    Option (List Char) :=
  (findFrom matchAt s (s.length + 1) 0).map fun ij =>
    (s.drop ij.1).take (ij.2 - ij.1)

/-- Scanner for `String.prototype.replace` with a global regex: walk the
subject from position `i`, replacing every leftmost non-overlapping match by
`repl` applied to the matched segment.  `fuel` bounds the walk (callers pass
`s.length + 1`; every step advances the position). -/
def replaceScan (matchAt : List Char → Nat → Option Nat)
    (repl : List Char → List Char) (s : List Char) :
    Nat → Nat → List Char
  | 0, i => s.drop i
  | fuel + 1, i =>
    match matchAt s i with
    | some j =>
      if i < j then
        repl ((s.drop i).take (j - i)) ++ replaceScan matchAt repl s fuel j
      else
        match s.get? i with
        | some c => c :: replaceScan matchAt repl s fuel (i + 1)
        | none => []
    | none =>
      match s.get? i with
      | some c => c :: replaceScan matchAt repl s fuel (i + 1)
      | none => []

/-- Model of `String.prototype.replace` with a global regex.  The call resets
the regex's `lastIndex` to `0`; callers account for that. -/
def replaceAll (matchAt : List Char → Nat → Option Nat)
    (repl : List Char → List Char) (s : List Char) : List Char :=
  replaceScan matchAt repl s (s.length + 1) 0

/-- `GetSubstitution` for string replacement arguments, for the forms the
source uses (`$$` and `$&`; any other `$` is literal). -/
def getSubstitution (matched : List Char) : List Char → List Char
  | [] => []
  | '$' :: '&' :: rest => matched ++ getSubstitution matched rest
  | '$' :: '$' :: rest => '$' :: getSubstitution matched rest
  | c :: rest => c :: getSubstitution matched rest

/-! ## `String(value)` coercion -/

mutual

/-- Model of the `String(value)` coercion used by `maskField` and by the
primitive branch of `sanitize`.  An array stringifies as `join(',')` with
`null`/`undefined` elements as empty strings; a plain object stringifies as
`"[object Object]"`. -/
def jsToString : JSVal → String
  | vNull => "null"
  | vUndef => "undefined"
  | vBool b => if b then "true" else "false"
  | vNum n => toString n
  | vStr s => s
  | vArr xs => String.intercalate "," (jsArrayElemStrings xs)
  | vObj _ => "[object Object]"

/-- The element strings of `Array.prototype.join(',')`: `null` and
`undefined` elements join as the empty string. -/
def jsArrayElemStrings : List JSVal → List String
  | [] => []
  | vNull :: xs => "" :: jsArrayElemStrings xs
  | vUndef :: xs => "" :: jsArrayElemStrings xs
  | vBool b :: xs => jsToString (vBool b) :: jsArrayElemStrings xs
  | vNum n :: xs => jsToString (vNum n) :: jsArrayElemStrings xs
  | vStr s :: xs => jsToString (vStr s) :: jsArrayElemStrings xs
  | vArr ys :: xs => jsToString (vArr ys) :: jsArrayElemStrings xs
  | vObj fs :: xs => jsToString (vObj fs) :: jsArrayElemStrings xs

end

/-! ## The sanitizer module state

The three pattern objects of `SENSITIVE_PATTERNS` are module-level constants
carrying the `g` flag, so each owns a mutable `lastIndex`.  That is the only
mutable state in `default-sanitizer.ts`. -/

/-- The `lastIndex` properties of the three module-level regexes. -/
structure RegexState where
  emailLastIndex : Nat
  creditCardLastIndex : Nat
  phoneLastIndex : Nat
deriving DecidableEq, Repr

/-- The state of a freshly loaded module: every `lastIndex` is `0`. -/
def freshRegexState : RegexState := ⟨0, 0, 0⟩

/-- A sanitizer as the repository consumes it (`ISanitizer.sanitize`), with
the regex module state threaded explicitly.  A custom sanitizer that does not
touch the module regexes simply returns its incoming state. -/
def ISanitizer := RegexState → JSVal → JSVal × RegexState

/-! ## `DefaultSanitizer` (current version, `default-sanitizer.ts`) -/

/-- `SENSITIVE_FIELDS` from `default-sanitizer.ts` (identical list in the
earlier copy `src/unnamed/part_003`). -/
def SENSITIVE_FIELDS : List String :=
  ["password", "token", "apiKey", "api_key", "accessToken", "access_token",
   "refreshToken", "refresh_token", "secret", "secretKey", "secret_key",
   "privateKey", "private_key", "creditCard", "credit_card", "cardNumber",
   "card_number", "cvv", "pin", "ssn", "socialSecurityNumber"]

/-- `MASKABLE_FIELDS` from `default-sanitizer.ts` (identical in the earlier
copy). -/
def MASKABLE_FIELDS : List String := ["email", "phone", "phoneNumber", "phone_number"]

namespace DefaultSanitizer

/-- `shouldRemoveField` of the current sanitizer:
`SENSITIVE_FIELDS.some((field) => key.includes(field.toLowerCase()))`.
The argument is the already-lowercased key, as at the call site. -/
def shouldRemoveField (key : String) : Bool :=
  SENSITIVE_FIELDS.any fun field => jsIncludes key (jsToLower field)

/-- `shouldMaskField` of the current sanitizer:
`MASKABLE_FIELDS.some((field) => key.includes(field.toLowerCase()))`. -/
def shouldMaskField (key : String) : Bool :=
  MASKABLE_FIELDS.any fun field => jsIncludes key (jsToLower field)

end DefaultSanitizer

namespace DefaultSanitizerOld

/-- `shouldRemoveField` of the earlier copy (`src/unnamed/part_003`):
`SENSITIVE_FIELDS.some((field) => key.includes(field))` — the entries are NOT
lowercased, although the key was. -/
def shouldRemoveField (key : String) : Bool :=
  SENSITIVE_FIELDS.any fun field => jsIncludes key field

/-- `shouldMaskField` of the earlier copy:
`MASKABLE_FIELDS.some((field) => key.includes(field))`. -/
def shouldMaskField (key : String) : Bool :=
  MASKABLE_FIELDS.any fun field => jsIncludes key field

end DefaultSanitizerOld

/-! ## `maskField` and `sanitizeString`

These two methods are character-for-character identical in the current
sanitizer and in the earlier copy, so they are defined once and shared. -/

/-- The generic fallback of `maskField`: `slice(0,2) + '***' + slice(-2)` for
strings longer than four characters, else `'***'`. -/
def maskFieldGeneric (stringValue : String) : String :=
  if 4 < stringValue.length then
    jsTake stringValue 2 ++ "***" ++ jsTakeLast stringValue 2
  else "***"

/-- The phone branch of `maskField` and its fall-through to the generic
branch.  `SENSITIVE_PATTERNS.phone.test(...)` advances/resets the phone
regex's `lastIndex`. -/
def maskFieldPhonePart (st : RegexState) (key : String) (stringValue : String) :
    String × RegexState :=
  if jsIncludes (jsToLower key) "phone" then
    let tr := regexTest matchPhoneAt stringValue.data st.phoneLastIndex
    let st' := { st with phoneLastIndex := tr.2 }
    if tr.1 then ("***-***-" ++ jsTakeLast stringValue 4, st')
    else (maskFieldGeneric stringValue, st')
  else (maskFieldGeneric stringValue, st)

/-- `DefaultSanitizer.maskField`.  The email branch calls
`SENSITIVE_PATTERNS.email.test(stringValue)` (which moves the email regex's
`lastIndex`) and then `stringValue.match(SENSITIVE_PATTERNS.email)` (which
resets it to `0`); `match[0].split('@')` destructures into the local part and
the domain. -/
def maskField (st : RegexState) (key : String) (value : JSVal) :
    String × RegexState :=
  let stringValue := jsToString value
  if jsIncludes (jsToLower key) "email" then
    let tr := regexTest matchEmailAt stringValue.data st.emailLastIndex
    let st1 := { st with emailLastIndex := tr.2 }
    if tr.1 then
      let st2 := { st1 with emailLastIndex := 0 }
      match matchFirstSeg matchEmailAt stringValue.data with
      | some m =>
        let username : List Char := m.takeWhile fun c => c ≠ '@'
        let domain : List Char := (m.drop (username.length + 1)).takeWhile fun c => c ≠ '@'
        (⟨username.take 3⟩ ++ "***" ++ "@" ++ ⟨domain⟩, st2)
      | none => maskFieldPhonePart st2 key stringValue
    else maskFieldPhonePart st1 key stringValue
  else maskFieldPhonePart st key stringValue

/-- The credit-card replacement argument `'[CARD_NUMBER]'` (a plain string,
run through `GetSubstitution`, where it contains no `$` forms). -/
def cardRepl (matched : List Char) : List Char :=
  getSubstitution matched "[CARD_NUMBER]".data

/-- The email replacement callback:
`(match) => { const [username, domain] = match.split('@'); return username.slice(0, 3) + '***@' + domain; }`. -/
def emailRepl (matched : List Char) : List Char :=
  let username : List Char := matched.takeWhile fun c => c ≠ '@'
  let domain : List Char := (matched.drop (username.length + 1)).takeWhile fun c => c ≠ '@'
  username.take 3 ++ "***@".data ++ domain

/-- The phone replacement argument `'***-***-$&'.slice(-11)`: the literal
`'***-***-$&'` has ten characters, so `slice(-11)` returns it unchanged, and
`$&` in a string replacement denotes the whole match. -/
def phoneReplTemplate : String := jsTakeLast "***-***-$&" 11

/-- The phone replacement as a function of the matched segment. -/
def phoneRepl (matched : List Char) : List Char :=
  getSubstitution matched phoneReplTemplate.data

/-- `DefaultSanitizer.sanitizeString`: replace credit-card matches, then email
matches, then phone matches.  Each `replace` with a global regex leaves that
regex's `lastIndex` at `0`, so the function's output is state-independent. -/
def sanitizeString (str : String) : String :=
  let s1 := replaceAll matchCardAt cardRepl str.data
  let s2 := replaceAll matchEmailAt emailRepl s1
  let s3 := replaceAll matchPhoneAt phoneRepl s2
  ⟨s3⟩

/-- The module state after `sanitizeString`: all three `lastIndex` properties
have been reset to `0` by the three global `replace` calls. -/
def sanitizeStringSt (_st : RegexState) (str : String) : String × RegexState :=
  (sanitizeString str, ⟨0, 0, 0⟩)

mutual

/-- `sanitize` of `DefaultSanitizer`, parameterized by the two key
classifiers (`shouldRemoveField`, `shouldMaskField`), which are the only
difference between the current sanitizer and the earlier copy.  The module
regex state is threaded in evaluation order. -/
def sanitizeCore (p m : String → Bool) (st : RegexState) (data : JSVal) :
    JSVal × RegexState :=
  match data with
  | vNull => (vNull, st)
  | vUndef => (vUndef, st)
  | vBool b =>
    let r := sanitizeStringSt st (jsToString (vBool b))
    (vStr r.1, r.2)
  | vNum n =>
    let r := sanitizeStringSt st (jsToString (vNum n))
    (vStr r.1, r.2)
  | vStr s =>
    let r := sanitizeStringSt st (jsToString (vStr s))
    (vStr r.1, r.2)
  | vArr xs =>
    let r := sanitizeCoreList p m st xs
    (vArr r.1, r.2)
  | vObj fs =>
    let r := sanitizeCoreFields p m st fs
    (vObj r.1, r.2)

/-- `data.map((item) => this.sanitize(item))`, with the state threaded
left-to-right. -/
def sanitizeCoreList (p m : String → Bool) (st : RegexState) :
    List JSVal → List JSVal × RegexState
  | [] => ([], st)
  | x :: xs =>
    let r := sanitizeCore p m st x
    let rs := sanitizeCoreList p m r.2 xs
    (r.1 :: rs.1, rs.2)

/-- The `Object.entries` loop of `sanitize`: redact, mask, or recurse per key
(redaction checked first), preserving key order. -/
def sanitizeCoreFields (p m : String → Bool) (st : RegexState) :
    List (String × JSVal) → List (String × JSVal) × RegexState
  | [] => ([], st)
  | (key, value) :: rest =>
    let lowerKey := jsToLower key
    if p lowerKey then
      let rs := sanitizeCoreFields p m st rest
      ((key, vStr "[REDACTED]") :: rs.1, rs.2)
    else if m lowerKey then
      let r := maskField st key value
      let rs := sanitizeCoreFields p m r.2 rest
      ((key, vStr r.1) :: rs.1, rs.2)
    else
      let r := sanitizeCore p m st value
      let rs := sanitizeCoreFields p m r.2 rest
      ((key, r.1) :: rs.1, rs.2)

end

/-- `DefaultSanitizer.sanitize` of `default-sanitizer.ts` (current version),
as an `ISanitizer`. -/
def DefaultSanitizer.sanitize : ISanitizer :=
  sanitizeCore DefaultSanitizer.shouldRemoveField DefaultSanitizer.shouldMaskField

/-- `DefaultSanitizer.sanitize` of the earlier copy (`src/unnamed/part_003`),
as an `ISanitizer`. -/
def DefaultSanitizerOld.sanitize : ISanitizer :=
  sanitizeCore DefaultSanitizerOld.shouldRemoveField DefaultSanitizerOld.shouldMaskField

/-! ## The logger repository pipeline (`logger-repository.ts`)

The claims under verification concern `log`, `sanitizeContext` and
`getSanitizer`.  Adapter registration, lifecycle and configuration updates are
outside the claims; a repository value therefore carries the observable state
those operations produce: the insertion-ordered adapter map (JavaScript `Map`
iteration order is insertion order), the `enabled` flag, the configuration and
the default sanitizer instance. -/

/-- The four log levels. -/
inductive LogLevel where
  | debug
  | info
  | warn
  | error
deriving DecidableEq

/-- `FormattedOutput` of `types.ts`: independently optional `text` and `json`
slots. -/
structure FormattedOutput where
  text : Option String := none
  json : Option (List (String × JSVal)) := none

/-! `EnhancedLogOptions` of `types.ts` is `LogContext` plus the per-call
sanitizer options.  The spread copy `{ ...options }` in `sanitizeContext`
copies every field, so the sanitized context has the same shape and one
structure serves for both. -/

/-- `EnhancedLogOptions` (= `LogContext` + `SanitizerOptions`).  Absent
optional fields are `none`; `function` is the provenance field of that name in
`LogContext`. -/
structure EnhancedLogOptions where
  tag : Option String := none
  file : Option String := none
  function : Option String := none
  data : Option JSVal := none
  error : Option JSVal := none
  timestamp : Option String := none
  metadata : Option JSVal := none
  sanitizer : Option ISanitizer := none
  skipSanitization : Option Bool := none

/-- `IFormatter.format(level, message, context?)`. -/
def IFormatter := LogLevel → String → Option EnhancedLogOptions → FormattedOutput

/-- The `sanitization` slot of `LoggerRepositoryConfig`. -/
structure SanitizationConfig where
  enabled : Option Bool := none
  defaultSanitizer : Option ISanitizer := none

/-- The `formatters` slot of `LoggerRepositoryConfig`. -/
structure FormattersConfig where
  default : Option IFormatter := none

/-- `LoggerRepositoryConfig` (the deprecated `adapters` convenience slot is
only read by `updateConfig`, which is outside the claims, and is omitted). -/
structure LoggerRepositoryConfig where
  environment : Option String := none
  sanitization : Option SanitizationConfig := none
  formatters : Option FormattersConfig := none
  severity : Option LogLevel := none

/-- An adapter as the fan-out loop consumes it: its `log` method, which
either returns or throws (`Except.error`).  `initialize`/`destroy`/`isEnabled`
belong to registration and teardown, which are outside the claims. -/
structure ILoggerAdapter where
  log : LogLevel → String → Option EnhancedLogOptions → Except String Unit

/-- The sanitizer registry's backing `Map` as an insertion-ordered
association list (keys are stored lowercased). -/
def SanitizerRegistry := List (String × ISanitizer)

/-- `Map.prototype.set`: replace in place if the key is present, else append. -/
def mapSet (k : String) (v : ISanitizer) :
    SanitizerRegistry → SanitizerRegistry
  | [] => [(k, v)]
  | (k', v') :: rest =>
    if k' = k then (k, v) :: rest else (k', v') :: mapSet k v rest

namespace SanitizerRegistry

/-- `SanitizerRegistry.register(tag, sanitizer)`:
`this.sanitizers.set(tag.toLowerCase(), sanitizer)`. -/
def register (reg : SanitizerRegistry) (tag : String) (s : ISanitizer) :
    SanitizerRegistry :=
  mapSet (jsToLower tag) s reg

/-- `SanitizerRegistry.get(tag?)`: `undefined` on a falsy tag (absent or the
empty string), else a lowercased lookup. -/
def get (reg : SanitizerRegistry) (tag : Option String) : Option ISanitizer :=
  match tag with
  | none => none
  | some t =>
    if t = "" then none
    else (reg.find? fun kv => kv.1 = jsToLower t).map fun kv => kv.2

end SanitizerRegistry

/-- The repository state reaching `log`: the insertion-ordered adapter map,
the configuration, the default sanitizer instance (from
`config.sanitization.defaultSanitizer` or `new DefaultSanitizer()`), and the
`enabled` gate. -/
structure LoggerRepository where
  adapters : List (String × ILoggerAdapter)
  config : LoggerRepositoryConfig
  defaultSanitizer : ISanitizer
  enabled : Bool

namespace LoggerRepository

/-- `getSanitizer(options?)`: per-call sanitizer, else tag-specific registry
lookup, else the default sanitizer when `config.sanitization?.enabled` is
truthy, else none.  The registry is the module-level singleton, passed
explicitly. -/
def getSanitizer (repo : LoggerRepository) (registry : SanitizerRegistry)
    (options : Option EnhancedLogOptions) : Option ISanitizer :=
  match options with
  | none =>
    if (repo.config.sanitization.bind fun sc => sc.enabled) = some true then
      some repo.defaultSanitizer
    else none
  | some o =>
    match o.sanitizer with
    | some s => some s
    | none =>
      let viaTag :=
        match o.tag with
        | some t =>
          if t = "" then none else SanitizerRegistry.get registry (some t)
        | none => none
      match viaTag with
      | some s => some s
      | none =>
        if (repo.config.sanitization.bind fun sc => sc.enabled) = some true then
          some repo.defaultSanitizer
        else none

/-- Truthiness of an optional value slot (`if (options.data)` etc.). -/
def truthyOpt : Option JSVal → Bool
  | none => false
  | some v => jsTruthy v

/-- The guard `options.error && typeof options.error === 'object'`. -/
def errorIsObject : Option JSVal → Bool
  | none => false
  | some v => jsTruthy v && jsIsObject v

/-- `sanitizeContext(options?)`: pass through absent options or
`skipSanitization`; otherwise select a sanitizer, and if one is found take a
shallow copy of the options and overwrite `data`, `metadata` and object
`error` with their sanitized forms, in that source order (the regex module
state threads through the three `sanitize` calls). -/
def sanitizeContext (repo : LoggerRepository) (registry : SanitizerRegistry)
    (st : RegexState) (options : Option EnhancedLogOptions) :
    Option EnhancedLogOptions × RegexState :=
  match options with
  | none => (none, st)
  | some o =>
    if o.skipSanitization = some true then (some o, st)
    else
      match getSanitizer repo registry (some o) with
      | none => (some o, st)
      | some sanitizer =>
        let rData :=
          if truthyOpt o.data then
            match o.data with
            | some d =>
              let r := sanitizer st d
              (some r.1, r.2)
            | none => (o.data, st)
          else (o.data, st)
        let rMeta :=
          if truthyOpt o.metadata then
            match o.metadata with
            | some d =>
              let r := sanitizer rData.2 d
              (some r.1, r.2)
            | none => (o.metadata, rData.2)
          else (o.metadata, rData.2)
        let rError :=
          if errorIsObject o.error then
            match o.error with
            | some e =>
              let r := sanitizer rMeta.2 e
              (some r.1, r.2)
            | none => (o.error, rMeta.2)
          else (o.error, rMeta.2)
        (some { o with data := rData.1, metadata := rMeta.1, error := rError.1 },
          rError.2)

/-- One adapter call observed during fan-out: the arguments the adapter's
`log` received and the call's outcome (the outcome is caught by the
per-adapter `try`/`catch`; it is recorded here because the claims speak about
which adapter threw). -/
structure Delivery where
  adapterName : String
  level : LogLevel
  message : String
  context : Option EnhancedLogOptions
  outcome : Except String Unit

/-- The fan-out loop of `log`: every registered adapter is invoked once, in
insertion order, with the same level, message and sanitized context; a thrown
error is caught (`console.warn`) and iteration continues. -/
def fanOut (adapters : List (String × ILoggerAdapter)) (level : LogLevel)
    (message : String) (context : Option EnhancedLogOptions) : List Delivery :=
  adapters.map fun na =>
    { adapterName := na.1, level := level, message := message,
      context := context, outcome := na.2.log level message context }

/-- `LoggerRepository.log(level, message, options?)`.  The result is the
observable behavior at the call boundary: `Except.error` would be an
exception escaping to the caller (none is ever produced — the early return on
`!this.enabled` and the per-adapter `try`/`catch` are the only exits), and
the payload records the adapter deliveries and the final regex module
state. -/
def log (repo : LoggerRepository) (registry : SanitizerRegistry)
    (st : RegexState) (level : LogLevel) (message : String)
    (options : Option EnhancedLogOptions) :
    Except String (List Delivery × RegexState) :=
  if repo.enabled = false then Except.ok ([], st)
  else
    let r := sanitizeContext repo registry st options
    Except.ok (fanOut repo.adapters level message r.1, r.2)

end LoggerRepository

/-- Whether an object value has a property named `k` (used to state the
absence of a `metadata._formattedOutput` slot). -/
def objHasKey (k : String) : JSVal → Bool
  | vObj fs => fs.any fun kv => kv.1 = k
  | _ => false

/-! ## Concrete fixtures shared by the claim instances -/

/-- A capturing adapter whose `log` always succeeds (a stand-in for
`MockLoggerAdapter`: the payload it receives is recorded in the delivery
trace). -/
def mockAdapter : ILoggerAdapter := ⟨fun _ _ _ => Except.ok ()⟩

/-- An adapter whose `log` always throws. -/
def throwingAdapter : ILoggerAdapter := ⟨fun _ _ _ => Except.error "adapter failure"⟩

/-- A repository with sanitization enabled, the default sanitizer in place
and a single capturing adapter named `test`. -/
def sanitizingRepo : LoggerRepository :=
  { adapters := [("test", mockAdapter)],
    config :=
      { sanitization :=
          some { enabled := some true, defaultSanitizer := some DefaultSanitizer.sanitize } },
    defaultSanitizer := DefaultSanitizer.sanitize,
    enabled := true }

/-- The options of the spec's end-to-end scenario:
`{ tag: '[Payment]', error: new Error('timeout'), data: { cardNumber: '4111111111111111' } }`.
An `Error` instance has no enumerable own properties (per ECMA-262, `message`
and `stack` are non-enumerable), so its `Object.entries` view — which is all
the sanitizer reads or copies — is the empty property list. -/
def paymentOptions : EnhancedLogOptions :=
  { tag := some "[Payment]", error := some (vObj []),
    data := some (vObj [("cardNumber", vStr "4111111111111111")]) }

/-- The context the end-to-end scenario delivers to the adapter. -/
def paymentDelivered : EnhancedLogOptions :=
  { tag := some "[Payment]", error := some (vObj []),
    data := some (vObj [("cardNumber", vStr "[REDACTED]")]) }

/-- A repository with sanitization enabled AND a default formatter configured
(`config.formatters.default`), with one capturing adapter named `mock`. -/
def formatterRepo (f : IFormatter) : LoggerRepository :=
  { adapters := [("mock", mockAdapter)],
    config :=
      { sanitization := some { enabled := some true },
        formatters := some { default := some f } },
    defaultSanitizer := DefaultSanitizer.sanitize,
    enabled := true }

/-- Options with a tag and a pre-existing metadata key. -/
def c3Options : EnhancedLogOptions :=
  { tag := some "[Test]", metadata := some (vObj [("requestId", vStr "r1")]) }

/-! ## Claim C6 -/

/-- C6 (refuted; the code is the slip): the claim says an embedded
phone-number-like digit group is replaced by a masked form preserving the
last 4 digits of the matched number and only those digits.  In the code the
replacement argument is `'***-***-$&'.slice(-11)`: the literal has ten
characters, so `slice(-11)` is the identity, and `$&` substitutes the whole
match — every digit of the phone number survives.  At the failing input
`"555-123-4567"` the sanitizer returns `"***-***-555-123-4567"`; the
credit-card and email replacements of the same claim behave as stated. -/
theorem C6_phone_digits_all_preserved :
    DefaultSanitizer.sanitize freshRegexState (vStr "555-123-4567")
      = (vStr "***-***-555-123-4567", freshRegexState) ∧
    phoneReplTemplate = "***-***-$&" ∧
    DefaultSanitizer.sanitize freshRegexState (vStr "4111 1111 1111 1111")
      = (vStr "[CARD_NUMBER]", freshRegexState) ∧
    DefaultSanitizer.sanitize freshRegexState (vStr "contact john.doe@example.com now")
      = (vStr "contact joh***@example.com now", freshRegexState) := by
  refine ⟨by decide, by decide, by decide, by decide⟩

/-! ## Claim C9 -/

/-- C9 (the claim states the intent; the code violates it):
`DefaultSanitizer.sanitize` is not a deterministic function of its argument.
`maskField` calls `SENSITIVE_PATTERNS.phone.test(...)` on a regex with the
`g` flag, whose `lastIndex` survives between `sanitize` calls: sanitizing
`{ phone: "555-123-4567" }` twice in a row yields `"***-***-4567"` and then
`"55***67"` (the second `test` starts at `lastIndex = 12`, fails, and the
value falls through to generic masking). -/
theorem C9_sanitize_carries_state :
    (DefaultSanitizer.sanitize freshRegexState
        (vObj [("phone", vStr "555-123-4567")])).1
      = vObj [("phone", vStr "***-***-4567")] ∧
    (DefaultSanitizer.sanitize
        (DefaultSanitizer.sanitize freshRegexState
          (vObj [("phone", vStr "555-123-4567")])).2
        (vObj [("phone", vStr "555-123-4567")])).1
      = vObj [("phone", vStr "55***67")] ∧
    (DefaultSanitizer.sanitize freshRegexState
        (vObj [("phone", vStr "555-123-4567")])).1
      ≠ (DefaultSanitizer.sanitize
          (DefaultSanitizer.sanitize freshRegexState
            (vObj [("phone", vStr "555-123-4567")])).2
          (vObj [("phone", vStr "555-123-4567")])).1 := by
  refine ⟨by decide, by decide, by decide⟩

/-! ## Claim C10 -/

/-- C10 counterexample: the current sanitizer and the earlier copy disagree
at `{ apiKey: "x" }`.  The earlier copy's `shouldRemoveField` tests
`key.includes(field)` with the raw (camel-case) entries against the
lowercased key, so `'apikey'.includes('apiKey')` is false and the field
survives; the current version lowercases the entry and redacts it. -/
theorem C10_counterexample_apiKey :
    DefaultSanitizer.sanitize freshRegexState (vObj [("apiKey", vStr "x")])
      ≠ DefaultSanitizerOld.sanitize freshRegexState (vObj [("apiKey", vStr "x")]) ∧
    DefaultSanitizer.sanitize freshRegexState (vObj [("apiKey", vStr "x")])
      = (vObj [("apiKey", vStr "[REDACTED]")], freshRegexState) ∧
    DefaultSanitizerOld.sanitize freshRegexState (vObj [("apiKey", vStr "x")])
      = (vObj [("apiKey", vStr "x")], freshRegexState) ∧
    DefaultSanitizer.shouldRemoveField "apikey" = true ∧
    DefaultSanitizerOld.shouldRemoveField "apikey" = false := by
  refine ⟨by decide, by decide, by decide, by decide, by decide⟩

/-! ## Claim C7 -/

/-- C7: the end-to-end scenario.  On an enabled repository with sanitization
enabled and a capturing adapter registered, the call
`log('error', 'Operation failed', { tag: '[Payment]', error: new Error('timeout'), data: { cardNumber: '4111111111111111' } })`
delivers to the adapter the level `error`, the message `Operation failed`, a
context whose `data.cardNumber` is `'[REDACTED]'`, and whose `error` is the
sanitized form of the Error object — which, the Error having no own
enumerable fields at all (hence none sensitive-named), is the shallow copy
carrying the same (empty) enumerable-property view. -/
theorem C7_end_to_end_payment_scenario :
    LoggerRepository.log sanitizingRepo [] freshRegexState LogLevel.error
        "Operation failed" (some paymentOptions)
      = Except.ok
          ([{ adapterName := "test", level := LogLevel.error,
              message := "Operation failed", context := some paymentDelivered,
              outcome := Except.ok () }], freshRegexState) ∧
    paymentDelivered.data = some (vObj [("cardNumber", vStr "[REDACTED]")]) ∧
    paymentDelivered.error
      = some (DefaultSanitizer.sanitize freshRegexState (vObj [])).1 ∧
    (DefaultSanitizer.sanitize freshRegexState (vObj [])).1 = vObj [] := by
  have hdata : DefaultSanitizer.sanitize freshRegexState
      (vObj [("cardNumber", vStr "4111111111111111")])
      = (vObj [("cardNumber", vStr "[REDACTED]")], freshRegexState) := by decide
  have herr : DefaultSanitizer.sanitize freshRegexState (vObj [])
      = (vObj [], freshRegexState) := by decide
  refine ⟨?_, by simp [paymentDelivered, herr],
    by simp [paymentDelivered, herr], by simp [herr]⟩
  simp [LoggerRepository.log, LoggerRepository.sanitizeContext,
    LoggerRepository.getSanitizer, SanitizerRegistry.get, LoggerRepository.fanOut,
    sanitizingRepo, paymentOptions, paymentDelivered, mockAdapter,
    LoggerRepository.truthyOpt, LoggerRepository.errorIsObject, jsTruthy,
    jsIsObject, hdata, herr]

/-! ## Claim C3 -/

/-- C3 (refuted; the shipped `log()` is missing the documented step): with a
default formatter configured (`config.formatters.default`) and sanitization
enabled, `log('info', 'Test message', { tag: '[Test]', metadata: { requestId: 'r1' } })`
delivers a context whose metadata is exactly the sanitized incoming metadata
`{ requestId: 'r1' }` — there is no `metadata._formattedOutput` slot at all,
for any formatter `f`, because `LoggerRepository.log` never reads
`config.formatters`.  The repository's own CHANGELOG (v0.2.0), its testing
guide and the file adapter all describe and consume the
`metadata._formattedOutput` attachment the claim states. -/
theorem C3_formatter_output_never_attached (f : IFormatter) :
    LoggerRepository.log (formatterRepo f) [] freshRegexState LogLevel.info
        "Test message" (some c3Options)
      = Except.ok
          ([{ adapterName := "mock", level := LogLevel.info,
              message := "Test message", context := some c3Options,
              outcome := Except.ok () }], freshRegexState) ∧
    c3Options.metadata = some (vObj [("requestId", vStr "r1")]) ∧
    objHasKey "_formattedOutput" (vObj [("requestId", vStr "r1")]) = false := by
  have hmeta : DefaultSanitizer.sanitize freshRegexState
      (vObj [("requestId", vStr "r1")])
      = (vObj [("requestId", vStr "r1")], freshRegexState) := by decide
  refine ⟨?_, by simp [c3Options], by decide⟩
  simp [LoggerRepository.log, LoggerRepository.sanitizeContext,
    LoggerRepository.getSanitizer, SanitizerRegistry.get, LoggerRepository.fanOut,
    formatterRepo, c3Options, mockAdapter,
    LoggerRepository.truthyOpt, LoggerRepository.errorIsObject, jsTruthy,
    jsIsObject, hmeta]

/-! ## Claim C2 -/

/-- C2: fan-out completeness.  On an enabled repository a single `log` call
produces exactly one delivery per registered adapter, in insertion order
(the delivery names, in order, are the adapter names, in order), each
carrying the identical level and message and the one sanitized context object
computed before the loop; and the call returns normally. -/
theorem C2_fanout_completeness (repo : LoggerRepository)
    (registry : SanitizerRegistry) (st : RegexState) (level : LogLevel)
    (message : String) (options : Option EnhancedLogOptions)
    (hen : repo.enabled = true) :
    LoggerRepository.log repo registry st level message options
      = Except.ok
          (LoggerRepository.fanOut repo.adapters level message
            (LoggerRepository.sanitizeContext repo registry st options).1,
           (LoggerRepository.sanitizeContext repo registry st options).2) ∧
    (LoggerRepository.fanOut repo.adapters level message
        (LoggerRepository.sanitizeContext repo registry st options).1).map
        (fun d => d.adapterName)
      = repo.adapters.map Prod.fst ∧
    ∀ d ∈ LoggerRepository.fanOut repo.adapters level message
        (LoggerRepository.sanitizeContext repo registry st options).1,
      d.level = level ∧ d.message = message ∧
      d.context = (LoggerRepository.sanitizeContext repo registry st options).1 := by
  refine ⟨by simp [LoggerRepository.log, hen], ?_, ?_⟩
  · simp [LoggerRepository.fanOut]
  · intro d hd
    simp [LoggerRepository.fanOut] at hd
    obtain ⟨a, b, hab, rfl⟩ := hd
    exact ⟨rfl, rfl, rfl⟩

/-- A two-adapter repository: `A` (registered first) always throws from
`log`, `B` (registered second) succeeds. -/
def twoAdapterRepo : LoggerRepository :=
  { adapters := [("A", throwingAdapter), ("B", mockAdapter)],
    config := {}, defaultSanitizer := DefaultSanitizer.sanitize,
    enabled := true }

/-- Witness for C2 at a concrete repository and call. -/
theorem C2_fanout_completeness_witness :
    LoggerRepository.log twoAdapterRepo [] freshRegexState LogLevel.info "m" none
      = Except.ok
          (LoggerRepository.fanOut twoAdapterRepo.adapters LogLevel.info "m"
            (LoggerRepository.sanitizeContext twoAdapterRepo [] freshRegexState none).1,
           (LoggerRepository.sanitizeContext twoAdapterRepo [] freshRegexState none).2) ∧
    (LoggerRepository.fanOut twoAdapterRepo.adapters LogLevel.info "m"
        (LoggerRepository.sanitizeContext twoAdapterRepo [] freshRegexState none).1).map
        (fun d => d.adapterName)
      = twoAdapterRepo.adapters.map Prod.fst ∧
    ∀ d ∈ LoggerRepository.fanOut twoAdapterRepo.adapters LogLevel.info "m"
        (LoggerRepository.sanitizeContext twoAdapterRepo [] freshRegexState none).1,
      d.level = LogLevel.info ∧ d.message = "m" ∧
      d.context = (LoggerRepository.sanitizeContext twoAdapterRepo [] freshRegexState none).1 :=
  C2_fanout_completeness twoAdapterRepo [] freshRegexState LogLevel.info "m" none rfl

/-! ## Claim C1 -/

/-- C1: fault isolation.  With adapters `A` then `B` registered in that
order on an enabled repository, if `A.log` throws then `B` still receives
its delivery with the same level and message (and the same sanitized
context), and `log` returns normally — the exception is recorded as `A`'s
caught outcome and never escapes to the caller. -/
theorem C1_fault_isolation (repo : LoggerRepository)
    (registry : SanitizerRegistry) (st : RegexState) (level : LogLevel)
    (message : String) (options : Option EnhancedLogOptions)
    (A B : ILoggerAdapter) (nA nB : String) (e : String)
    (hadapters : repo.adapters = [(nA, A), (nB, B)])
    (hen : repo.enabled = true)
    (hthrow : A.log level message
        (LoggerRepository.sanitizeContext repo registry st options).1
      = Except.error e) :
    LoggerRepository.log repo registry st level message options
      = Except.ok
          ([{ adapterName := nA, level := level, message := message,
              context := (LoggerRepository.sanitizeContext repo registry st options).1,
              outcome := Except.error e },
            { adapterName := nB, level := level, message := message,
              context := (LoggerRepository.sanitizeContext repo registry st options).1,
              outcome := B.log level message
                (LoggerRepository.sanitizeContext repo registry st options).1 }],
           (LoggerRepository.sanitizeContext repo registry st options).2) := by
  simp [LoggerRepository.log, hen, hadapters, LoggerRepository.fanOut, hthrow]

/-- Witness for C1: adapter `A` throws, `B` still receives level `info` and
message `m`, and the caller observes a normal return. -/
theorem C1_fault_isolation_witness :
    LoggerRepository.log twoAdapterRepo [] freshRegexState LogLevel.info "m" none
      = Except.ok
          ([{ adapterName := "A", level := LogLevel.info, message := "m",
              context := none, outcome := Except.error "adapter failure" },
            { adapterName := "B", level := LogLevel.info, message := "m",
              context := none, outcome := Except.ok () }], freshRegexState) :=
  C1_fault_isolation twoAdapterRepo [] freshRegexState LogLevel.info "m" none
    throwingAdapter mockAdapter "A" "B" "adapter failure" rfl rfl rfl

/-! ## Claim C8 -/

/-- C8: the caller's options object is never mutated and the sanitized
context is a derived copy.  In the embedding `sanitizeContext` is a pure
function of the options; the theorem states the full input/output relation:
with `skipSanitization` truthy or no sanitizer selected the very same
options value is returned (no copy is even taken), and otherwise the result
is a copy agreeing with the input on every field except possibly `data`,
`metadata` and `error`, each of which is also left unchanged when its
sanitization guard (`options.data` truthy, `options.metadata` truthy,
`options.error` truthy-and-object) fails. -/
theorem C8_options_never_mutated (repo : LoggerRepository)
    (registry : SanitizerRegistry) (st : RegexState) (o : EnhancedLogOptions) :
    (o.skipSanitization = some true →
      LoggerRepository.sanitizeContext repo registry st (some o) = (some o, st)) ∧
    (LoggerRepository.getSanitizer repo registry (some o) = none →
      LoggerRepository.sanitizeContext repo registry st (some o) = (some o, st)) ∧
    (∀ san, o.skipSanitization ≠ some true →
      LoggerRepository.getSanitizer repo registry (some o) = some san →
      ∃ r st', LoggerRepository.sanitizeContext repo registry st (some o) = (some r, st') ∧
        r.tag = o.tag ∧ r.file = o.file ∧ r.function = o.function ∧
        r.timestamp = o.timestamp ∧ r.sanitizer = o.sanitizer ∧
        r.skipSanitization = o.skipSanitization ∧
        (LoggerRepository.truthyOpt o.data = false → r.data = o.data) ∧
        (LoggerRepository.truthyOpt o.metadata = false → r.metadata = o.metadata) ∧
        (LoggerRepository.errorIsObject o.error = false → r.error = o.error)) := by
  refine ⟨?_, ?_, ?_⟩
  · intro h
    simp [LoggerRepository.sanitizeContext, h]
  · intro h
    by_cases hs : o.skipSanitization = some true
    · simp [LoggerRepository.sanitizeContext, hs]
    · simp [LoggerRepository.sanitizeContext, hs, h]
  · intro san hskip hsan
    simp only [LoggerRepository.sanitizeContext, if_neg hskip, hsan]
    refine ⟨_, _, rfl, rfl, rfl, rfl, rfl, rfl, rfl, ?_, ?_, ?_⟩
    · intro h; simp [h]
    · intro h; simp [h]
    · intro h; simp [h]

/-- Options carrying sensitive data together with the `skipSanitization`
escape hatch. -/
def skipOptions : EnhancedLogOptions :=
  { data := some (vObj [("password", vStr "p")]), skipSanitization := some true }

/-- Witness for C8: with `skipSanitization: true` the pipeline hands back the
identical options value (so `data.password` reaches adapters untouched). -/
theorem C8_options_never_mutated_witness :
    LoggerRepository.sanitizeContext sanitizingRepo [] freshRegexState
        (some skipOptions)
      = (some skipOptions, freshRegexState) :=
  (C8_options_never_mutated sanitizingRepo [] freshRegexState skipOptions).1 rfl

/-! ## Claim C4 -/

/-- The tag branch of `getSanitizer` computes exactly
`sanitizerRegistry.get(options.tag)`. -/
theorem viaTag_eq_get (registry : SanitizerRegistry) (tag : Option String) :
    (match tag with
      | some t => if t = "" then none else SanitizerRegistry.get registry (some t)
      | none => none)
      = SanitizerRegistry.get registry tag := by
  cases tag with
  | none => rfl
  | some t =>
    by_cases h : t = "" <;> simp [SanitizerRegistry.get, h]

/-- C4: sanitizer priority.  With a per-call sanitizer `S1` supplied, the
selected sanitizer is `S1` — regardless of any tag-registered sanitizer for
the call's tag or of the enabled default — and the delivered context carries
`S1`'s transformations of `data`, `metadata` and `error`.  The remaining
conjuncts state the rest of the priority chain: with no per-call sanitizer a
registry hit for the tag wins; with no registry hit the default sanitizer is
used when config sanitization is enabled; otherwise no sanitizer is selected
and the options are returned unchanged. -/
theorem C4_sanitizer_priority (repo : LoggerRepository)
    (registry : SanitizerRegistry) (st : RegexState) (o : EnhancedLogOptions)
    (S1 : ISanitizer) (d md e : JSVal)
    (hS1 : o.sanitizer = some S1)
    (hskip : o.skipSanitization ≠ some true)
    (hd : o.data = some d) (htd : jsTruthy d = true)
    (hmd : o.metadata = some md) (htmd : jsTruthy md = true)
    (he : o.error = some e) (hte : jsTruthy e = true) (hoe : jsIsObject e = true) :
    LoggerRepository.getSanitizer repo registry (some o) = some S1 ∧
    LoggerRepository.sanitizeContext repo registry st (some o)
      = (some { o with data := some (S1 st d).1,
                       metadata := some (S1 (S1 st d).2 md).1,
                       error := some (S1 (S1 (S1 st d).2 md).2 e).1 },
         (S1 (S1 (S1 st d).2 md).2 e).2) ∧
    (∀ o' : EnhancedLogOptions, ∀ s, o'.sanitizer = none →
      SanitizerRegistry.get registry o'.tag = some s →
      LoggerRepository.getSanitizer repo registry (some o') = some s) ∧
    (∀ o' : EnhancedLogOptions, o'.sanitizer = none →
      SanitizerRegistry.get registry o'.tag = none →
      (repo.config.sanitization.bind fun sc => sc.enabled) = some true →
      LoggerRepository.getSanitizer repo registry (some o')
        = some repo.defaultSanitizer) ∧
    (∀ o' : EnhancedLogOptions, ∀ st0, o'.sanitizer = none →
      SanitizerRegistry.get registry o'.tag = none →
      (repo.config.sanitization.bind fun sc => sc.enabled) ≠ some true →
      o'.skipSanitization ≠ some true →
      LoggerRepository.getSanitizer repo registry (some o') = none ∧
      LoggerRepository.sanitizeContext repo registry st0 (some o') = (some o', st0)) := by
  have hget : LoggerRepository.getSanitizer repo registry (some o) = some S1 := by
    simp [LoggerRepository.getSanitizer, hS1]
  refine ⟨hget, ?_, ?_, ?_, ?_⟩
  · simp only [LoggerRepository.sanitizeContext, if_neg hskip, hget,
      LoggerRepository.truthyOpt, hd, hmd, he, htd, htmd,
      LoggerRepository.errorIsObject, hte, hoe, if_true]
    simp
  · intro o' s hs hget'
    simp only [LoggerRepository.getSanitizer, hs]
    rw [viaTag_eq_get registry o'.tag, hget']
  · intro o' hs hget' hen
    simp only [LoggerRepository.getSanitizer, hs]
    rw [viaTag_eq_get registry o'.tag, hget']
    simp [hen]
  · intro o' st0 hs hget' hen hskip'
    have hnone : LoggerRepository.getSanitizer repo registry (some o') = none := by
      simp only [LoggerRepository.getSanitizer, hs]
      rw [viaTag_eq_get registry o'.tag, hget']
      simp [hen]
    exact ⟨hnone, by simp [LoggerRepository.sanitizeContext, hskip', hnone]⟩

/-- A per-call sanitizer `S1` that stamps every value it touches. -/
def s1Const : ISanitizer := fun st _ => (vStr "S1", st)

/-- A tag-registered sanitizer `S2`. -/
def s2Const : ISanitizer := fun st _ => (vStr "S2", st)

/-- A registry where `S2` is registered for tag `[Pay]` (stored lowercased). -/
def c4Registry : SanitizerRegistry := SanitizerRegistry.register [] "[Pay]" s2Const

/-- Options that supply `S1` per call while also carrying the tag `[Pay]`
for which `S2` is registered. -/
def c4Options : EnhancedLogOptions :=
  { tag := some "[Pay]", data := some (vObj [("k", vStr "v")]),
    metadata := some (vObj [("m", vStr "w")]), error := some (vObj []),
    sanitizer := some s1Const }

/-- Witness for C4: on the concrete call the selected sanitizer is `S1`, and
the delivered `data`, `metadata` and `error` all carry `S1`'s stamp — not
`S2`'s (registered for the tag) nor the default sanitizer's output. -/
theorem C4_sanitizer_priority_witness :
    LoggerRepository.getSanitizer sanitizingRepo c4Registry (some c4Options)
      = some s1Const ∧
    LoggerRepository.sanitizeContext sanitizingRepo c4Registry freshRegexState
        (some c4Options)
      = (some { c4Options with
                data := some (vStr "S1"),
                metadata := some (vStr "S1"),
                error := some (vStr "S1") },
         freshRegexState) := by
  have h := C4_sanitizer_priority sanitizingRepo c4Registry freshRegexState
    c4Options s1Const (vObj [("k", vStr "v")]) (vObj [("m", vStr "w")]) (vObj [])
    rfl (by decide) rfl rfl rfl rfl rfl rfl rfl
  exact ⟨h.1, h.2.1⟩

/-! ## Claim C5 -/

mutual

/-- Every object entry, at any nesting depth of a value, whose lowercased key
contains `"password"` carries exactly the string `'[REDACTED]'`. -/
def passwordCleanVal : JSVal → Bool
  | vObj fs => passwordCleanFields fs
  | vArr xs => passwordCleanList xs
  | _ => true

/-- `passwordCleanVal` over array elements. -/
def passwordCleanList : List JSVal → Bool
  | [] => true
  | x :: xs => passwordCleanVal x && passwordCleanList xs

/-- `passwordCleanVal` over object entries: a password-named key must map to
`'[REDACTED]'`, and every value is recursively clean. -/
def passwordCleanFields : List (String × JSVal) → Bool
  | [] => true
  | (k, v) :: rest =>
    (!(jsIncludes (jsToLower k) "password") || beqVal v (vStr "[REDACTED]")) &&
      passwordCleanVal v && passwordCleanFields rest

end

theorem passwordCleanVal_vNull : passwordCleanVal vNull = true := rfl

theorem passwordCleanVal_vUndef : passwordCleanVal vUndef = true := rfl

theorem passwordCleanVal_vStr (s : String) : passwordCleanVal (vStr s) = true := rfl

theorem passwordCleanVal_vObj (fs : List (String × JSVal)) :
    passwordCleanVal (vObj fs) = passwordCleanFields fs := rfl

theorem passwordCleanVal_vArr (xs : List JSVal) :
    passwordCleanVal (vArr xs) = passwordCleanList xs := rfl

/-- A key containing `"password"` is in the redact list (`'password'` is the
first `SENSITIVE_FIELDS` entry). -/
theorem password_shouldRemove (k : String)
    (h : jsIncludes k "password" = true) :
    DefaultSanitizer.shouldRemoveField k = true := by
  have hp : jsToLower "password" = "password" := by decide
  simp [DefaultSanitizer.shouldRemoveField, SENSITIVE_FIELDS, hp]
  exact Or.inl h

/-- Sanitized object entries are password-clean, given the elementwise
hypothesis for the entry values. -/
theorem sanitizeFields_passwordClean
    (fs : List (String × JSVal))
    (ih : ∀ kv ∈ fs, ∀ st : RegexState,
      passwordCleanVal (sanitizeCore DefaultSanitizer.shouldRemoveField
        DefaultSanitizer.shouldMaskField st kv.2).1 = true) :
    ∀ st : RegexState,
      passwordCleanFields (sanitizeCoreFields DefaultSanitizer.shouldRemoveField
        DefaultSanitizer.shouldMaskField st fs).1 = true := by
  induction fs with
  | nil => intro st; simp [sanitizeCoreFields, passwordCleanFields]
  | cons kv rest ihl =>
    obtain ⟨k, v⟩ := kv
    intro st
    have hrest := ihl (fun kv hkv => ih kv (by simp [hkv]))
    by_cases hp : DefaultSanitizer.shouldRemoveField (jsToLower k) = true
    · simp [sanitizeCoreFields, hp, passwordCleanFields, beqVal, hrest,
        passwordCleanVal_vStr]
    · have hnp : ¬ jsIncludes (jsToLower k) "password" = true := by
        intro hc
        exact hp (password_shouldRemove _ hc)
      by_cases hm : DefaultSanitizer.shouldMaskField (jsToLower k) = true
      · simp [sanitizeCoreFields, hp, hm, passwordCleanFields,
          passwordCleanVal_vStr, hrest, hnp]
      · simp [sanitizeCoreFields, hp, hm, passwordCleanFields, hnp, hrest,
          ih (k, v) (by simp)]

/-- Sanitized array elements are password-clean, given the elementwise
hypothesis. -/
theorem sanitizeList_passwordClean
    (xs : List JSVal)
    (ih : ∀ x ∈ xs, ∀ st : RegexState,
      passwordCleanVal (sanitizeCore DefaultSanitizer.shouldRemoveField
        DefaultSanitizer.shouldMaskField st x).1 = true) :
    ∀ st : RegexState,
      passwordCleanList (sanitizeCoreList DefaultSanitizer.shouldRemoveField
        DefaultSanitizer.shouldMaskField st xs).1 = true := by
  induction xs with
  | nil => intro st; simp [sanitizeCoreList, passwordCleanList]
  | cons x rest ihl =>
    intro st
    simp [sanitizeCoreList, passwordCleanList, ih x (by simp),
      ihl (fun y hy => ih y (by simp [hy]))]

/-- The output of `DefaultSanitizer.sanitize` is password-clean, from any
module state. -/
theorem sanitize_passwordClean (v : JSVal) :
    ∀ st : RegexState,
      passwordCleanVal (DefaultSanitizer.sanitize st v).1 = true := by
  induction v using JSVal.inductionOn with
  | hNull => intro st; simp [DefaultSanitizer.sanitize, sanitizeCore,
      passwordCleanVal_vNull]
  | hUndef => intro st; simp [DefaultSanitizer.sanitize, sanitizeCore,
      passwordCleanVal_vUndef]
  | hBool b => intro st; simp [DefaultSanitizer.sanitize, sanitizeCore,
      passwordCleanVal_vStr]
  | hNum n => intro st; simp [DefaultSanitizer.sanitize, sanitizeCore,
      passwordCleanVal_vStr]
  | hStr s => intro st; simp [DefaultSanitizer.sanitize, sanitizeCore,
      passwordCleanVal_vStr]
  | hArr xs ih =>
    intro st
    simp only [DefaultSanitizer.sanitize, sanitizeCore, passwordCleanVal_vArr]
    exact sanitizeList_passwordClean xs ih st
  | hObj fs ih =>
    intro st
    simp only [DefaultSanitizer.sanitize, sanitizeCore, passwordCleanVal_vObj]
    exact sanitizeFields_passwordClean fs ih st

/-- A password-named entry of an input object is mapped to the same key with
value `'[REDACTED]'` in the sanitized output. -/
theorem sanitizeFields_password_mem
    (fs : List (String × JSVal)) :
    ∀ st : RegexState, ∀ k : String, ∀ val : JSVal, (k, val) ∈ fs →
      jsIncludes (jsToLower k) "password" = true →
      (k, vStr "[REDACTED]")
        ∈ (sanitizeCoreFields DefaultSanitizer.shouldRemoveField
            DefaultSanitizer.shouldMaskField st fs).1 := by
  induction fs with
  | nil => intro st k val hmem; simp at hmem
  | cons kv rest ihl =>
    obtain ⟨k0, v0⟩ := kv
    intro st k val hmem hinc
    rcases List.mem_cons.mp hmem with hhead | htail
    · injection hhead with hk hv
      subst hk
      have hp : DefaultSanitizer.shouldRemoveField (jsToLower k) = true :=
        password_shouldRemove _ hinc
      simp [sanitizeCoreFields, hp]
    · by_cases hp : DefaultSanitizer.shouldRemoveField (jsToLower k0) = true
      · simp only [sanitizeCoreFields, hp, if_true]
        exact List.mem_cons_of_mem _ (ihl _ k val htail hinc)
      · by_cases hm : DefaultSanitizer.shouldMaskField (jsToLower k0) = true
        · simp only [sanitizeCoreFields, hp, hm, if_true, if_false,
            Bool.false_eq_true]
          exact List.mem_cons_of_mem _ (ihl _ k val htail hinc)
        · simp only [sanitizeCoreFields, hp, hm, if_true, if_false,
            Bool.false_eq_true]
          exact List.mem_cons_of_mem _ (ihl _ k val htail hinc)

/-- C5: password redaction is complete and checked before masking.  (1) The
output of `sanitize` never contains, at any nesting depth (arrays included),
an object entry whose lowercased key contains `"password"` with a value other
than the string `'[REDACTED]'`.  (2) Every password-named entry of an input
object reappears in the output as the same key mapped to `'[REDACTED]'`.
(3) For a key matching both the redact and the mask lists, the entry is
redacted — the redaction branch is taken regardless of the mask predicate. -/
theorem C5_password_always_redacted :
    (∀ v : JSVal, ∀ st : RegexState,
      passwordCleanVal (DefaultSanitizer.sanitize st v).1 = true) ∧
    (∀ fs : List (String × JSVal), ∀ st : RegexState, ∀ k : String, ∀ val : JSVal,
      (k, val) ∈ fs → jsIncludes (jsToLower k) "password" = true →
      (k, vStr "[REDACTED]")
        ∈ (sanitizeCoreFields DefaultSanitizer.shouldRemoveField
            DefaultSanitizer.shouldMaskField st fs).1) ∧
    (∀ st : RegexState, ∀ k : String, ∀ v : JSVal, ∀ rest : List (String × JSVal),
      DefaultSanitizer.shouldRemoveField (jsToLower k) = true →
      DefaultSanitizer.shouldMaskField (jsToLower k) = true →
      (sanitizeCoreFields DefaultSanitizer.shouldRemoveField
          DefaultSanitizer.shouldMaskField st ((k, v) :: rest)).1
        = (k, vStr "[REDACTED]")
            :: (sanitizeCoreFields DefaultSanitizer.shouldRemoveField
                DefaultSanitizer.shouldMaskField st rest).1) := by
  refine ⟨sanitize_passwordClean, sanitizeFields_password_mem, ?_⟩
  intro st k v rest hp hm
  simp [sanitizeCoreFields, hp]

/-- Witness for C5 at concrete inputs: a `userPassword` entry is redacted, a
nested-in-array `Password` entry leaves the output clean, and the
both-lists key `passwordEmail` is redacted, not masked. -/
theorem C5_password_always_redacted_witness :
    (("userPassword", vStr "hunter2")
        ∈ [("id", vNum 7), ("userPassword", vStr "hunter2")] ∧
      jsIncludes (jsToLower "userPassword") "password" = true ∧
      ("userPassword", vStr "[REDACTED]")
        ∈ (sanitizeCoreFields DefaultSanitizer.shouldRemoveField
            DefaultSanitizer.shouldMaskField freshRegexState
            [("id", vNum 7), ("userPassword", vStr "hunter2")]).1) ∧
    passwordCleanVal (DefaultSanitizer.sanitize freshRegexState
        (vObj [("a", vArr [vObj [("Password", vStr "x")]])])).1 = true ∧
    (DefaultSanitizer.shouldRemoveField (jsToLower "passwordEmail") = true ∧
      DefaultSanitizer.shouldMaskField (jsToLower "passwordEmail") = true ∧
      (sanitizeCoreFields DefaultSanitizer.shouldRemoveField
          DefaultSanitizer.shouldMaskField freshRegexState
          [("passwordEmail", vStr "j@x.co")]).1
        = [("passwordEmail", vStr "[REDACTED]")]) :=
  ⟨⟨by decide, by decide,
      C5_password_always_redacted.2.1 _ freshRegexState "userPassword"
        (vStr "hunter2") (by decide) (by decide)⟩,
    C5_password_always_redacted.1 _ freshRegexState,
    ⟨by decide, by decide,
      C5_password_always_redacted.2.2 freshRegexState "passwordEmail"
        (vStr "j@x.co") [] (by decide) (by decide)⟩⟩

/-! ## Claim C10: the amended refinement statement

The counterexample `C10_counterexample_apiKey` shows the two sanitizer
versions are not extensionally equal.  The amended statement characterizes
exactly where they differ: the mask classifiers agree on every key; the
redact classifiers, applied as in the source to uppercase-free (lowercased)
keys, disagree exactly on keys containing one of the lowercased camel-case
entries `apikey`, `privatekey`, `creditcard`, `cardnumber`,
`socialsecuritynumber` while containing no all-lowercase entry (the other
camel-case entries are absorbed: `accesstoken` and `refreshtoken` contain
`token`, `secretkey` contains `secret`); and on every input value all of
whose keys, at every nesting depth, are classified identically, the two
`sanitize` functions return identical results from identical module
states. -/

/-- `startsWithSeg` detects a prefix. -/
theorem startsWithSeg_iff (p s : List Char) :
    startsWithSeg p s = true ↔ ∃ r, s = p ++ r := by
  induction p generalizing s with
  | nil => simp [startsWithSeg]
  | cons a as ih =>
    cases s with
    | nil => simp [startsWithSeg]
    | cons b bs =>
      simp only [startsWithSeg, Bool.and_eq_true, beq_iff_eq, ih,
        List.cons_append, List.cons.injEq]
      constructor
      · rintro ⟨rfl, r, rfl⟩
        exact ⟨r, rfl, rfl⟩
      · rintro ⟨r, rfl, rfl⟩
        exact ⟨rfl, r, rfl⟩

/-- `hasSeg` detects an inner segment. -/
theorem hasSeg_iff (p s : List Char) :
    hasSeg p s = true ↔ ∃ l r, s = l ++ p ++ r := by
  induction s with
  | nil =>
    simp only [hasSeg, List.isEmpty_iff]
    constructor
    · rintro rfl
      exact ⟨[], [], rfl⟩
    · rintro ⟨l, r, h⟩
      rcases List.append_eq_nil.mp h.symm with ⟨h1, h2⟩
      rcases List.append_eq_nil.mp h1 with ⟨_, h3⟩
      exact h3
  | cons c cs ih =>
    simp only [hasSeg, Bool.or_eq_true, startsWithSeg_iff, ih]
    constructor
    · rintro (⟨r, hr⟩ | ⟨l, r, rfl⟩)
      · exact ⟨[], r, by simpa using hr⟩
      · exact ⟨c :: l, r, rfl⟩
    · rintro ⟨l, r, h⟩
      cases l with
      | nil =>
        left
        exact ⟨r, by simpa using h⟩
      | cons x xs =>
        right
        simp only [List.cons_append, List.cons.injEq] at h
        exact ⟨xs, r, h.2⟩

/-- Segment containment is transitive. -/
theorem hasSeg_trans {a b c : List Char} (h1 : hasSeg a b = true)
    (h2 : hasSeg b c = true) : hasSeg a c = true := by
  rw [hasSeg_iff] at h1 h2 ⊢
  obtain ⟨l1, r1, rfl⟩ := h1
  obtain ⟨l2, r2, rfl⟩ := h2
  exact ⟨l2 ++ l1, r1 ++ r2, by simp⟩

/-- A contained segment's characters are characters of the subject. -/
theorem hasSeg_sub {p s : List Char} (h : hasSeg p s = true) :
    ∀ c ∈ p, c ∈ s := by
  rw [hasSeg_iff] at h
  obtain ⟨l, r, rfl⟩ := h
  intro c hc
  simp [hc]

/-- A key with no ASCII uppercase character — every key actually passed to
the classifiers, since the call sites lowercase first. -/
def noUpper (k : String) : Bool := k.data.all fun c => !isUpperAscii c

/-- `includes` respects segment containment of the pattern. -/
theorem jsIncludes_trans {k : String} (p q : String)
    (hpq : hasSeg p.data q.data = true) (h : jsIncludes k q = true) :
    jsIncludes k p = true :=
  hasSeg_trans hpq h

/-- An uppercase-free key cannot contain a pattern with an uppercase
character. -/
theorem jsIncludes_false_of_upper (k p : String) (hk : noUpper k = true)
    (c : Char) (hc : c ∈ p.data) (hcu : isUpperAscii c = true) :
    jsIncludes k p = false := by
  cases h : jsIncludes k p
  · rfl
  · exfalso
    have hmem : c ∈ k.data := hasSeg_sub h c hc
    have := List.all_eq_true.mp hk c hmem
    simp [hcu] at this

/-- The 13 all-lowercase `SENSITIVE_FIELDS` entries. -/
def lowHit (k : String) : Bool :=
  ["password", "token", "api_key", "access_token", "refresh_token", "secret",
   "secret_key", "private_key", "credit_card", "card_number", "cvv", "pin",
   "ssn"].any fun field => jsIncludes k field

/-- The lowercased camel-case `SENSITIVE_FIELDS` entries that are not
absorbed by an all-lowercase entry. -/
def camelOnlyHit (k : String) : Bool :=
  ["apikey", "privatekey", "creditcard", "cardnumber",
   "socialsecuritynumber"].any fun field => jsIncludes k field

/-- On uppercase-free keys the earlier copy's redact classifier reduces to
the all-lowercase entries (the camel-case entries can never match). -/
theorem oldRemove_eq_lowHit (k : String) (hk : noUpper k = true) :
    DefaultSanitizerOld.shouldRemoveField k = lowHit k := by
  have f1 : jsIncludes k "apiKey" = false :=
    jsIncludes_false_of_upper k _ hk 'K' (by decide) (by decide)
  have f2 : jsIncludes k "accessToken" = false :=
    jsIncludes_false_of_upper k _ hk 'T' (by decide) (by decide)
  have f3 : jsIncludes k "refreshToken" = false :=
    jsIncludes_false_of_upper k _ hk 'T' (by decide) (by decide)
  have f4 : jsIncludes k "secretKey" = false :=
    jsIncludes_false_of_upper k _ hk 'K' (by decide) (by decide)
  have f5 : jsIncludes k "privateKey" = false :=
    jsIncludes_false_of_upper k _ hk 'K' (by decide) (by decide)
  have f6 : jsIncludes k "creditCard" = false :=
    jsIncludes_false_of_upper k _ hk 'C' (by decide) (by decide)
  have f7 : jsIncludes k "cardNumber" = false :=
    jsIncludes_false_of_upper k _ hk 'N' (by decide) (by decide)
  have f8 : jsIncludes k "socialSecurityNumber" = false :=
    jsIncludes_false_of_upper k _ hk 'S' (by decide) (by decide)
  simp only [DefaultSanitizerOld.shouldRemoveField, SENSITIVE_FIELDS, lowHit,
    List.any_cons, List.any_nil, f1, f2, f3, f4, f5, f6, f7, f8,
    Bool.false_or, Bool.or_false]

set_option maxHeartbeats 1600000 in
/-- The current redact classifier hits exactly the all-lowercase entries plus
the five unabsorbed lowercased camel-case entries. -/
theorem newRemove_iff (k : String) :
    DefaultSanitizer.shouldRemoveField k = true
      ↔ (lowHit k = true ∨ camelOnlyHit k = true) := by
  have hat : jsIncludes k "accesstoken" = true → jsIncludes k "token" = true :=
    jsIncludes_trans "token" "accesstoken" (by decide)
  have hrt : jsIncludes k "refreshtoken" = true → jsIncludes k "token" = true :=
    jsIncludes_trans "token" "refreshtoken" (by decide)
  have hsk : jsIncludes k "secretkey" = true → jsIncludes k "secret" = true :=
    jsIncludes_trans "secret" "secretkey" (by decide)
  simp only [DefaultSanitizer.shouldRemoveField, SENSITIVE_FIELDS, lowHit,
    camelOnlyHit, List.any_cons, List.any_nil, Bool.or_eq_true, Bool.or_false,
    show (jsToLower "password") = "password" from by decide,
    show (jsToLower "token") = "token" from by decide,
    show (jsToLower "apiKey") = "apikey" from by decide,
    show (jsToLower "api_key") = "api_key" from by decide,
    show (jsToLower "accessToken") = "accesstoken" from by decide,
    show (jsToLower "access_token") = "access_token" from by decide,
    show (jsToLower "refreshToken") = "refreshtoken" from by decide,
    show (jsToLower "refresh_token") = "refresh_token" from by decide,
    show (jsToLower "secret") = "secret" from by decide,
    show (jsToLower "secretKey") = "secretkey" from by decide,
    show (jsToLower "secret_key") = "secret_key" from by decide,
    show (jsToLower "privateKey") = "privatekey" from by decide,
    show (jsToLower "private_key") = "private_key" from by decide,
    show (jsToLower "creditCard") = "creditcard" from by decide,
    show (jsToLower "credit_card") = "credit_card" from by decide,
    show (jsToLower "cardNumber") = "cardnumber" from by decide,
    show (jsToLower "card_number") = "card_number" from by decide,
    show (jsToLower "cvv") = "cvv" from by decide,
    show (jsToLower "pin") = "pin" from by decide,
    show (jsToLower "ssn") = "ssn" from by decide,
    show (jsToLower "socialSecurityNumber") = "socialsecuritynumber" from by decide]
  tauto

set_option maxHeartbeats 800000 in
/-- The mask classifiers of the two versions agree on every key: both reduce
to "contains `email` or contains `phone`", because each `phoneNumber`-shaped
entry contains `phone`. -/
theorem maskClassifiersAgree (k : String) :
    DefaultSanitizerOld.shouldMaskField k = DefaultSanitizer.shouldMaskField k := by
  have h1 : jsIncludes k "phoneNumber" = true → jsIncludes k "phone" = true :=
    jsIncludes_trans "phone" "phoneNumber" (by decide)
  have h2 : jsIncludes k "phonenumber" = true → jsIncludes k "phone" = true :=
    jsIncludes_trans "phone" "phonenumber" (by decide)
  have h3 : jsIncludes k "phone_number" = true → jsIncludes k "phone" = true :=
    jsIncludes_trans "phone" "phone_number" (by decide)
  rw [Bool.eq_iff_iff]
  simp only [DefaultSanitizerOld.shouldMaskField, DefaultSanitizer.shouldMaskField,
    MASKABLE_FIELDS, List.any_cons, List.any_nil, Bool.or_eq_true, Bool.or_false,
    show (jsToLower "email") = "email" from by decide,
    show (jsToLower "phone") = "phone" from by decide,
    show (jsToLower "phoneNumber") = "phonenumber" from by decide,
    show (jsToLower "phone_number") = "phone_number" from by decide]
  tauto

/-- Characterization of redact-classifier disagreement on uppercase-free
keys: the versions differ exactly on keys hitting a camel-only entry while
missing every all-lowercase entry. -/
theorem removeDisagreement (k : String) (hk : noUpper k = true) :
    (DefaultSanitizerOld.shouldRemoveField k ≠ DefaultSanitizer.shouldRemoveField k)
      ↔ (camelOnlyHit k = true ∧ DefaultSanitizerOld.shouldRemoveField k = false) := by
  rw [oldRemove_eq_lowHit k hk]
  have hiff := newRemove_iff k
  cases ha : lowHit k <;> cases hb : camelOnlyHit k <;>
    simp_all

mutual

/-- Every key of the value, at every nesting depth, is classified
identically by the two classifier pairs (on the lowercased key, as the call
sites classify). -/
def classifiersAgreeVal (p1 m1 p2 m2 : String → Bool) : JSVal → Bool
  | vObj fs => classifiersAgreeFields p1 m1 p2 m2 fs
  | vArr xs => classifiersAgreeList p1 m1 p2 m2 xs
  | _ => true

/-- `classifiersAgreeVal` over array elements. -/
def classifiersAgreeList (p1 m1 p2 m2 : String → Bool) : List JSVal → Bool
  | [] => true
  | x :: xs =>
    classifiersAgreeVal p1 m1 p2 m2 x && classifiersAgreeList p1 m1 p2 m2 xs

/-- `classifiersAgreeVal` over object entries. -/
def classifiersAgreeFields (p1 m1 p2 m2 : String → Bool) :
    List (String × JSVal) → Bool
  | [] => true
  | (k, v) :: rest =>
    (p1 (jsToLower k) == p2 (jsToLower k)) &&
      (m1 (jsToLower k) == m2 (jsToLower k)) &&
      classifiersAgreeVal p1 m1 p2 m2 v &&
      classifiersAgreeFields p1 m1 p2 m2 rest

end

theorem classifiersAgreeVal_vObj (p1 m1 p2 m2 : String → Bool)
    (fs : List (String × JSVal)) :
    classifiersAgreeVal p1 m1 p2 m2 (vObj fs)
      = classifiersAgreeFields p1 m1 p2 m2 fs := rfl

theorem classifiersAgreeVal_vArr (p1 m1 p2 m2 : String → Bool)
    (xs : List JSVal) :
    classifiersAgreeVal p1 m1 p2 m2 (vArr xs)
      = classifiersAgreeList p1 m1 p2 m2 xs := rfl

/-- Object entries sanitize identically under agreeing classifiers, given
the elementwise hypothesis for the entry values. -/
theorem sanitizeFields_congr (p1 m1 p2 m2 : String → Bool)
    (fs : List (String × JSVal))
    (ih : ∀ kv ∈ fs, ∀ st : RegexState,
      classifiersAgreeVal p1 m1 p2 m2 kv.2 = true →
      sanitizeCore p1 m1 st kv.2 = sanitizeCore p2 m2 st kv.2) :
    ∀ st : RegexState, classifiersAgreeFields p1 m1 p2 m2 fs = true →
      sanitizeCoreFields p1 m1 st fs = sanitizeCoreFields p2 m2 st fs := by
  induction fs with
  | nil => intro st _; simp [sanitizeCoreFields]
  | cons kv rest ihl =>
    obtain ⟨k, v⟩ := kv
    intro st hag
    simp only [classifiersAgreeFields, Bool.and_eq_true, beq_iff_eq] at hag
    obtain ⟨⟨⟨hp, hm⟩, hv⟩, hrest⟩ := hag
    have htail := ihl (fun kv hkv => ih kv (by simp [hkv]))
    by_cases h1 : p1 (jsToLower k) = true
    · simp only [sanitizeCoreFields, h1, hp ▸ h1, if_true]
      rw [htail st hrest]
    · by_cases h2 : m1 (jsToLower k) = true
      · simp only [sanitizeCoreFields, h1, hp ▸ h1, h2, hm ▸ h2, if_true,
          if_false, Bool.false_eq_true]
        rw [htail _ hrest]
      · simp only [sanitizeCoreFields, h1, hp ▸ h1, h2, hm ▸ h2, if_true,
          if_false, Bool.false_eq_true]
        rw [ih (k, v) (by simp) st hv, htail _ hrest]

/-- Array elements sanitize identically under agreeing classifiers. -/
theorem sanitizeList_congr (p1 m1 p2 m2 : String → Bool)
    (xs : List JSVal)
    (ih : ∀ x ∈ xs, ∀ st : RegexState,
      classifiersAgreeVal p1 m1 p2 m2 x = true →
      sanitizeCore p1 m1 st x = sanitizeCore p2 m2 st x) :
    ∀ st : RegexState, classifiersAgreeList p1 m1 p2 m2 xs = true →
      sanitizeCoreList p1 m1 st xs = sanitizeCoreList p2 m2 st xs := by
  induction xs with
  | nil => intro st _; simp [sanitizeCoreList]
  | cons x rest ihl =>
    intro st hag
    simp only [classifiersAgreeList, Bool.and_eq_true] at hag
    obtain ⟨hx, hrest⟩ := hag
    simp only [sanitizeCoreList]
    rw [ih x (by simp) st hx,
      ihl (fun y hy => ih y (by simp [hy])) _ hrest]

/-- The sanitizer core is determined by the classifier values on the keys of
its input. -/
theorem sanitizeCore_congr (p1 m1 p2 m2 : String → Bool) (v : JSVal) :
    ∀ st : RegexState, classifiersAgreeVal p1 m1 p2 m2 v = true →
      sanitizeCore p1 m1 st v = sanitizeCore p2 m2 st v := by
  induction v using JSVal.inductionOn with
  | hNull => intro st _; simp [sanitizeCore]
  | hUndef => intro st _; simp [sanitizeCore]
  | hBool b => intro st _; simp [sanitizeCore]
  | hNum n => intro st _; simp [sanitizeCore]
  | hStr s => intro st _; simp [sanitizeCore]
  | hArr xs ih =>
    intro st hag
    rw [classifiersAgreeVal_vArr] at hag
    simp only [sanitizeCore]
    rw [sanitizeList_congr p1 m1 p2 m2 xs ih st hag]
  | hObj fs ih =>
    intro st hag
    rw [classifiersAgreeVal_vObj] at hag
    simp only [sanitizeCore]
    rw [sanitizeFields_congr p1 m1 p2 m2 fs ih st hag]

/-- C10 amended: the two `DefaultSanitizer.sanitize` versions agree except
where their redact classification differs.  (1) The mask classifiers agree
on every key.  (2) On uppercase-free keys (only such keys reach the
classifiers) the redact classifiers disagree exactly on keys containing one
of `apikey`, `privatekey`, `creditcard`, `cardnumber`,
`socialsecuritynumber` while matching no all-lowercase entry — there the
current version redacts and the earlier copy does not.  (3) On every value
all of whose keys, at every depth, are classified identically, the two
`sanitize` functions return identical results from identical module
states. -/
theorem C10_amended_equivalence :
    (∀ k : String,
      DefaultSanitizerOld.shouldMaskField k = DefaultSanitizer.shouldMaskField k) ∧
    (∀ k : String, noUpper k = true →
      ((DefaultSanitizerOld.shouldRemoveField k
          ≠ DefaultSanitizer.shouldRemoveField k)
        ↔ (camelOnlyHit k = true ∧
            DefaultSanitizerOld.shouldRemoveField k = false))) ∧
    (∀ v : JSVal, ∀ st : RegexState,
      classifiersAgreeVal DefaultSanitizerOld.shouldRemoveField
          DefaultSanitizerOld.shouldMaskField DefaultSanitizer.shouldRemoveField
          DefaultSanitizer.shouldMaskField v = true →
      DefaultSanitizerOld.sanitize st v = DefaultSanitizer.sanitize st v) :=
  ⟨maskClassifiersAgree, removeDisagreement,
    fun v st hag => sanitizeCore_congr _ _ _ _ v st hag⟩

/-- Witness for the amended C10: `apikey` is a disagreement key, `useremail`
masks identically, and a value with `password` and `email` keys sanitizes
identically under both versions. -/
theorem C10_amended_equivalence_witness :
    noUpper "apikey" = true ∧
    ((DefaultSanitizerOld.shouldRemoveField "apikey"
        ≠ DefaultSanitizer.shouldRemoveField "apikey")
      ↔ (camelOnlyHit "apikey" = true ∧
          DefaultSanitizerOld.shouldRemoveField "apikey" = false)) ∧
    DefaultSanitizerOld.shouldMaskField "useremail"
      = DefaultSanitizer.shouldMaskField "useremail" ∧
    classifiersAgreeVal DefaultSanitizerOld.shouldRemoveField
        DefaultSanitizerOld.shouldMaskField DefaultSanitizer.shouldRemoveField
        DefaultSanitizer.shouldMaskField
        (vObj [("password", vStr "x"), ("email", vStr "e@x.io")]) = true ∧
    DefaultSanitizerOld.sanitize freshRegexState
        (vObj [("password", vStr "x"), ("email", vStr "e@x.io")])
      = DefaultSanitizer.sanitize freshRegexState
          (vObj [("password", vStr "x"), ("email", vStr "e@x.io")]) :=
  ⟨by decide, C10_amended_equivalence.2.1 "apikey" (by decide),
    C10_amended_equivalence.1 "useremail", by decide,
    C10_amended_equivalence.2.2 _ freshRegexState (by decide)⟩

end GenericLogger
